import Mathlib

/-
  Verification of the VoxSplit audio splitter frontend against its design
  specification.  The data model follows src/frontend/src/types/index.ts;
  the store operations follow src/frontend/src/stores/useStore.ts; upload
  validation follows src/frontend/src/components/FileUpload.tsx; the hooks
  follow src/frontend/src/hooks/useAudioAnalysis.ts.  Floating point
  numbers are embedded as rationals.
-/

namespace VoxSplit

/-- Job lifecycle states, from the ProcessingStatus union type. -/
inductive ProcessingStatus
  | pending
  | processing
  | separating
  | diarizing
  | complete
  | failed
deriving DecidableEq, Repr

/-- Output container formats accepted by the store. -/
inductive OutputFormat
  | wav
  | mp3
  | flac
deriving DecidableEq, Repr

/-- Track categories, from the TrackType union type. -/
inductive TrackType
  | speaker
  | noise
  | vocals
  | drums
  | bass
  | other
deriving DecidableEq, BEq, Repr

/-- One diarized interval, from the SpeakerSegment interface
(the end field is called stop here because end is a Lean keyword). -/
structure SpeakerSegment where
  start : ℚ
  stop : ℚ
  speaker_id : String
  confidence : ℚ
deriving DecidableEq, Repr

/-- One separated or diarized channel, from the Track interface. -/
structure Track where
  id : String
  name : String
  type : TrackType
  file_path : String
  duration_seconds : ℚ
  segments : List SpeakerSegment
  waveform_data : Option (List ℚ)
  color : String
deriving DecidableEq, Repr

/-- Per-track entry of a mix request, from the TrackConfig interface. -/
structure TrackConfig where
  track_id : String
  muted : Bool
  solo : Bool
  volume : ℚ
  is_main : Bool
deriving DecidableEq, Repr

/-- The full mix request, from the MixConfig interface. -/
structure MixConfig where
  job_id : String
  tracks : List TrackConfig
  main_speaker_boost_db : ℚ
  noise_reduction_level : ℚ
  output_format : OutputFormat
  normalize : Bool
deriving DecidableEq, Repr

/-- Completed analysis payload, from the AnalysisResult interface. -/
structure AnalysisResult where
  job_id : String
  status : ProcessingStatus
  original_filename : String
  duration_seconds : ℚ
  speaker_count : ℕ
  tracks : List Track
  created_at : String
  completed_at : Option String
  error_message : Option String
deriving DecidableEq, Repr

/-- One status poll response, from the JobStatusResponse interface. -/
structure JobStatusResponse where
  job_id : String
  status : ProcessingStatus
  progress : ℚ
  current_step : String
  result : Option AnalysisResult
deriving DecidableEq, Repr

/-- Preview render response, from the PreviewResponse interface. -/
structure PreviewResponse where
  preview_url : String
  duration_seconds : ℚ
deriving DecidableEq, Repr

/-- Export render response, from the ExportResponse interface. -/
structure ExportResponse where
  download_url : String
  filename : String
  file_size_bytes : ℕ
  duration_seconds : ℚ
  format : String
deriving DecidableEq, Repr

/-- A track together with its interactive mix parameters, from the
TrackUIState interface (extends Track). -/
structure TrackUIState extends Track where
  muted : Bool
  solo : Bool
  volume : ℚ
  isMain : Bool
deriving DecidableEq, Repr

/-- The uploaded File object, reduced to the fields the code reads. -/
structure UploadFile where
  name : String
  size : ℕ
deriving DecidableEq, Repr

/-- The zustand store state, from the AppState interface. -/
structure AppState where
  uploadedFile : Option UploadFile
  uploadProgress : ℚ
  jobId : Option String
  status : ProcessingStatus
  progress : ℚ
  currentStep : String
  result : Option AnalysisResult
  tracks : List TrackUIState
  mainSpeakerBoostDb : ℚ
  noiseReductionLevel : ℚ
  outputFormat : OutputFormat
  normalize : Bool
  isPlaying : Bool
  currentTime : ℚ
  isExporting : Bool
  exportUrl : Option String
  error : Option String
deriving DecidableEq, Repr

/-- The literal initialState object of useStore.ts. -/
def initialState : AppState where
  uploadedFile := none
  uploadProgress := 0
  jobId := none
  status := .pending
  progress := 0
  currentStep := ""
  result := none
  tracks := []
  mainSpeakerBoostDb := 3
  noiseReductionLevel := 0
  outputFormat := .wav
  normalize := true
  isPlaying := false
  currentTime := 0
  isExporting := false
  exportUrl := none
  error := none

/-- The index-aware map inside setResult: it turns each Track of a completed
result into a TrackUIState with muted = false, solo = false, volume = 1.0, and
isMain set exactly when the index is 0 and the track type is speaker
(result.tracks.map with its index argument, written as structural recursion
on the list carrying the current index). -/
def mkUITracks (idx : ℕ) : List Track → List TrackUIState
  | [] => []
  | t :: ts => ⟨t, false, false, 1, idx == 0 && t.type == TrackType.speaker⟩ :: mkUITracks (idx + 1) ts

/-- Store action setUploadedFile. -/
def setUploadedFile (f : Option UploadFile) (s : AppState) : AppState :=
  { s with uploadedFile := f }

/-- Store action setJobId. -/
def setJobId (j : Option String) (s : AppState) : AppState :=
  { s with jobId := j }

/-- Store action setStatus. -/
def setStatus (st : ProcessingStatus) (s : AppState) : AppState :=
  { s with status := st }

/-- Store action setProgress. -/
def setProgress (p : ℚ) (s : AppState) : AppState :=
  { s with progress := p }

/-- Store action setCurrentStep. -/
def setCurrentStep (c : String) (s : AppState) : AppState :=
  { s with currentStep := c }

/-- Store action setResult: on a non-null result it installs the result and
rebuilds the UI track list with default mix parameters (first speaker track
is main by default); on null it clears both. -/
def setResult (r : Option AnalysisResult) (s : AppState) : AppState :=
  match r with
  | some res => { s with result := some res, tracks := mkUITracks 0 res.tracks }
  | none => { s with result := none, tracks := [] }

/-- Store action setTracks. -/
def setTracks (ts : List TrackUIState) (s : AppState) : AppState :=
  { s with tracks := ts }

/-- Store action toggleTrackMute: flips muted on every track whose id matches. -/
def toggleTrackMute (trackId : String) (s : AppState) : AppState :=
  { s with tracks := s.tracks.map fun t =>
      if t.id == trackId then { t with muted := !t.muted } else t }

/-- Store action toggleTrackSolo: flips solo on every track whose id matches. -/
def toggleTrackSolo (trackId : String) (s : AppState) : AppState :=
  { s with tracks := s.tracks.map fun t =>
      if t.id == trackId then { t with solo := !t.solo } else t }

/-- Store action setTrackVolume: stores Math.max(0, Math.min(2, volume)) on
every track whose id matches. -/
def setTrackVolume (trackId : String) (volume : ℚ) (s : AppState) : AppState :=
  { s with tracks := s.tracks.map fun t =>
      if t.id == trackId then { t with volume := max 0 (min 2 volume) } else t }

/-- Store action setMainSpeaker: sets isMain on exactly the tracks whose id
matches the argument and clears it on all others. -/
def setMainSpeaker (trackId : String) (s : AppState) : AppState :=
  { s with tracks := s.tracks.map fun t => { t with isMain := t.id == trackId } }

/-- Store action setMainSpeakerBoostDb: stores the argument as given. -/
def setMainSpeakerBoostDb (db : ℚ) (s : AppState) : AppState :=
  { s with mainSpeakerBoostDb := db }

/-- Store action setNoiseReductionLevel: stores the argument as given. -/
def setNoiseReductionLevel (level : ℚ) (s : AppState) : AppState :=
  { s with noiseReductionLevel := level }

/-- Store action setOutputFormat. -/
def setOutputFormat (f : OutputFormat) (s : AppState) : AppState :=
  { s with outputFormat := f }

/-- Store action setNormalize. -/
def setNormalize (b : Bool) (s : AppState) : AppState :=
  { s with normalize := b }

/-- Store action setIsPlaying. -/
def setIsPlaying (b : Bool) (s : AppState) : AppState :=
  { s with isPlaying := b }

/-- Store action setCurrentTime. -/
def setCurrentTime (t : ℚ) (s : AppState) : AppState :=
  { s with currentTime := t }

/-- Store action setIsExporting. -/
def setIsExporting (b : Bool) (s : AppState) : AppState :=
  { s with isExporting := b }

/-- Store action setExportUrl. -/
def setExportUrl (u : Option String) (s : AppState) : AppState :=
  { s with exportUrl := u }

/-- Store action setError. -/
def setError (e : Option String) (s : AppState) : AppState :=
  { s with error := e }

/-- Store action reset: set(initialState) replaces every AppState field,
since initialState lists them all. -/
def reset (_ : AppState) : AppState :=
  initialState

/-- Store selector getMixConfig: serializes the current state into a
MixConfig (jobId null becomes the empty string, per state.jobId or empty). -/
def getMixConfig (s : AppState) : MixConfig where
  job_id := s.jobId.getD ""
  tracks := s.tracks.map fun t =>
    { track_id := t.id, muted := t.muted, solo := t.solo
      volume := t.volume, is_main := t.isMain }
  main_speaker_boost_db := s.mainSpeakerBoostDb
  noise_reduction_level := s.noiseReductionLevel
  output_format := s.outputFormat
  normalize := s.normalize

/-- One interactive per-track store action. -/
inductive TrackOp
  | mute (trackId : String)
  | solo (trackId : String)
  | vol (trackId : String) (volume : ℚ)
  | main (trackId : String)
deriving DecidableEq, Repr

/-- Dispatch of a per-track action to the corresponding store operation. -/
def applyTrackOp : TrackOp → AppState → AppState
  | .mute i, s => toggleTrackMute i s
  | .solo i, s => toggleTrackSolo i s
  | .vol i v, s => setTrackVolume i v s
  | .main i, s => setMainSpeaker i s

/-- A sequence of per-track actions applied in order. -/
def applyTrackOps (ops : List TrackOp) (s : AppState) : AppState :=
  ops.foldl (fun s op => applyTrackOp op s) s

/-- Number of tracks currently flagged as main. -/
def mainCount (ts : List TrackUIState) : ℕ :=
  ts.countP fun t => t.isMain

/-- The upload allow-list of FileUpload.tsx. -/
def ALLOWED_EXTENSIONS : List String :=
  ["mp3", "wav", "m4a", "flac", "ogg", "aac"]

/-- The semantics of the JavaScript split on a dot: the list of maximal
dot-free segments, never empty (the empty name yields one empty segment). -/
def splitOnDot : List Char → List (List Char)
  | [] => [[]]
  | c :: cs =>
    let rest := splitOnDot cs
    if c = '.' then [] :: rest
    else
      match rest with
      | r :: rs => (c :: r) :: rs
      | [] => [[c]]

/-- The semantics of the JavaScript toLowerCase on the ascii range. -/
def toLowerCase (s : String) : String :=
  String.mk (s.data.map Char.toLower)

/-- The extension as validateFile computes it: the last dot-separated
component of the file name (split never yields an empty list, so pop is
total; a name with no dot yields the whole name). -/
def fileExtension (name : String) : String :=
  String.mk ((splitOnDot name.data).getLastD [])

/-- validateFile from FileUpload.tsx: the lowercased extension must be
non-empty and in the allow-list, and the size at most 500 MB.  Returns
whether the file is accepted together with the validation error message
(none on success). -/
def validateFile (f : UploadFile) : Bool × Option String :=
  let ext := toLowerCase (fileExtension f.name)
  if ext = "" ∨ ext ∉ ALLOWED_EXTENSIONS then
    (false, some "Invalid file type. Allowed: mp3, wav, m4a, flac, ogg, aac")
  else if 500 * 1024 * 1024 < f.size then
    (false, some "File too large. Maximum size: 500MB")
  else
    (true, none)

/-- handleFile from FileUpload.tsx starts uploadAndAnalyze exactly when
validateFile accepts, so the acceptance flag is also the upload-started
flag. -/
def handleFile (f : UploadFile) : Bool × Option String :=
  validateFile f

/-- The arguments of every preview request issued by the AudioPlayer:
generatePreview(0, Math.min(60, result.duration_seconds)). -/
def handleGeneratePreviewArgs (durationSeconds : ℚ) : ℚ × ℚ :=
  (0, min 60 durationSeconds)

/-- getAudioUrl from the api service: absolute urls pass through, others
are prefixed with the api base url. -/
def getAudioUrl (base path : String) : String :=
  if path.startsWith "http" then path else base ++ path

/-- exportAudio from useAudioAnalysis.ts as a state transformer, given the
outcome of the api call: without a job it only sets an error; otherwise it
raises isExporting, clears the error, on success stores the download url,
on failure stores the error message, and finally lowers isExporting. -/
def exportAudioRun (base : String) (outcome : Except String ExportResponse)
    (s : AppState) : AppState :=
  match s.jobId with
  | none => setError (some "No job to export") s
  | some _ =>
    let s1 := setError none (setIsExporting true s)
    let s2 := match outcome with
      | .ok resp => setExportUrl (some (getAudioUrl base resp.download_url)) s1
      | .error e => setError (some e) s1
    setIsExporting false s2

/-- generatePreview from useAudioAnalysis.ts as a state transformer plus
the returned local preview url: without a job it only sets an error;
otherwise it clears the error and either returns the preview url or stores
the failure message. -/
def generatePreviewRun (base : String) (outcome : Except String PreviewResponse)
    (s : AppState) : AppState × Option String :=
  match s.jobId with
  | none => (setError (some "No job to preview") s, none)
  | some _ =>
    let s1 := setError none s
    match outcome with
    | .ok resp => (s1, some (getAudioUrl base resp.preview_url))
    | .error e => (setError (some e) s1, none)

/-- Terminal job statuses (complete and failed). -/
def isTerminal : ProcessingStatus → Bool
  | .complete => true
  | .failed => true
  | _ => false

/-- The failure message stored by the polling loop: the error_message of the
response result when present and non-empty, or Processing failed. -/
def pollErrorMessage (r : JobStatusResponse) : String :=
  match r.result with
  | some res =>
    match res.error_message with
    | some m => if m = "" then "Processing failed" else m
    | none => "Processing failed"
  | none => "Processing failed"

/-- The polling loop state: the store plus whether the poll interval is
still alive (pollingRef not cleared). -/
structure PollState where
  store : AppState
  pollingActive : Bool
deriving DecidableEq, Repr

/-- One successful poll iteration, from pollJobStatus in
useAudioAnalysis.ts: once the interval is cleared nothing runs any more;
otherwise status, progress and current step are stored, a complete response
carrying a result installs the result and stops polling, and a failed
response stores the error message and stops polling. -/
def pollStep (r : JobStatusResponse) (p : PollState) : PollState :=
  if p.pollingActive = false then p
  else
    let s1 := setCurrentStep r.current_step (setProgress r.progress (setStatus r.status p.store))
    match r.status, r.result with
    | .complete, some res => { store := setResult (some res) s1, pollingActive := false }
    | .failed, _ => { store := setError (some (pollErrorMessage r)) s1, pollingActive := false }
    | _, _ => { store := s1, pollingActive := true }

/-- The poll states after each successive response of a sequence. -/
def pollStates (p : PollState) : List JobStatusResponse → List PollState
  | [] => []
  | r :: rs =>
    let p1 := pollStep r p
    p1 :: pollStates p1 rs

/-- Modelled from the spec: the backend Job State Machine that serves
status queries is not part of the frontend sources.  Per §4.1 and §5,
progress is monotonically non-decreasing until a terminal state and a
complete response carries the full result.  SpecStream p rs says the
response sequence rs is such a stream whose first progress is at least p. -/
inductive SpecStream : ℚ → List JobStatusResponse → Prop
  | nil (p : ℚ) : SpecStream p []
  | cons (p : ℚ) (r : JobStatusResponse) (rs : List JobStatusResponse) :
      p ≤ r.progress →
      (r.status = ProcessingStatus.complete → r.result.isSome) →
      (isTerminal r.status = false → SpecStream r.progress rs) →
      SpecStream p (r :: rs)

/-- Modelled from the spec: the deterministic Mixing Engine of §4.3 is a
backend component absent from the frontend sources; a track as the engine
sees it is a job track with its sample buffer (time aligned per §4.3.6). -/
structure EngineTrack where
  track_id : String
  type : TrackType
  samples : List ℚ
deriving DecidableEq, Repr

/-- Modelled from the spec: clamping a value to a closed interval. -/
def clampQ (lo hi x : ℚ) : ℚ :=
  max lo (min hi x)

/-- Modelled from the spec (§4.3 step 1): the effective TrackConfig of a
track is the first supplied entry matching its id, otherwise the defaults
unmuted, unsoloed, volume 1, not main. -/
def resolveConfig (cfgs : List TrackConfig) (t : EngineTrack) : TrackConfig :=
  (cfgs.find? fun c => c.track_id == t.track_id).getD
    ⟨t.track_id, false, false, 1, false⟩

/-- Modelled from the spec (§4.3 step 2): whether any track of this render
is effectively soloed. -/
def anySoloed (cfgs : List TrackConfig) (ts : List EngineTrack) : Bool :=
  ts.any fun t => (resolveConfig cfgs t).solo

/-- Modelled from the spec (§4.3 step 2): a track is silent when a solo is
present and it is not soloed, or when no solo is present and it is muted. -/
def isSilent (cfgs : List TrackConfig) (ts : List EngineTrack)
    (t : EngineTrack) : Bool :=
  if anySoloed cfgs ts then !(resolveConfig cfgs t).solo
  else (resolveConfig cfgs t).muted

/-- Modelled from the spec (§3, §9): the single main track is the first
TrackConfig with is_main in caller-supplied order; later ones are ignored. -/
def mainTrackId (cfgs : List TrackConfig) : Option String :=
  (cfgs.find? fun c => c.is_main).map fun c => c.track_id

/-- Modelled from the spec (§4.3 steps 3 to 5): the scale factor of a
non-silent track: clamped volume, times the main speaker boost factor on
the main track (dbToLin abstracts the 10 ^ (db / 20) conversion), times
the noise attenuation on noise and other tracks. -/
def trackGain (dbToLin : ℚ → ℚ) (cfgs : List TrackConfig) (boost nr : ℚ)
    (t : EngineTrack) : ℚ :=
  clampQ 0 2 (resolveConfig cfgs t).volume *
    (if mainTrackId cfgs = some t.track_id then dbToLin (clampQ 0 10 boost) else 1) *
    (if t.type == TrackType.noise || t.type == TrackType.other then
      1 - clampQ 0 1 nr else 1)

/-- Modelled from the spec (§4.3 steps 2 and 6): the samples a track
contributes to the sum: zeros when silent, its scaled samples otherwise. -/
def trackContribution (dbToLin : ℚ → ℚ) (cfgs : List TrackConfig)
    (ts : List EngineTrack) (boost nr : ℚ) (t : EngineTrack) : List ℚ :=
  if isSilent cfgs ts t then t.samples.map fun _ => 0
  else t.samples.map fun x => x * trackGain dbToLin cfgs boost nr t

/-- Modelled from the spec (§4.3 step 6): sample-wise summation of the
time-aligned buffers. -/
def sumBuffers : List (List ℚ) → List ℚ
  | [] => []
  | b :: bs => bs.foldl (fun acc x => acc.zipWith (· + ·) x) b

/-- Modelled from the spec (§4.3 step 7): peak absolute amplitude. -/
def peakAmp (b : List ℚ) : ℚ :=
  (b.map fun x => |x|).foldr max 0

/-- Modelled from the spec (§4.3 step 7): scaling to a peak of 0.98 of
full scale when normalize is on, hard clipping to [-1, 1] otherwise. -/
def finalizeBuffer (normalize : Bool) (b : List ℚ) : List ℚ :=
  if normalize then
    if peakAmp b = 0 then b else b.map fun x => x * (98 / 100 / peakAmp b)
  else b.map fun x => clampQ (-1) 1 x

/-- Modelled from the spec (§4.3): one full render of a mix request
against the track list of a job. -/
def renderMix (dbToLin : ℚ → ℚ) (ts : List EngineTrack)
    (cfgs : List TrackConfig) (boost nr : ℚ) (normalize : Bool) : List ℚ :=
  finalizeBuffer normalize
    (sumBuffers (ts.map fun t => trackContribution dbToLin cfgs ts boost nr t))

/-- Two TrackConfig entries that agree except possibly on muted. -/
def sameButMuted (a b : TrackConfig) : Prop :=
  a.track_id = b.track_id ∧ a.solo = b.solo ∧ a.volume = b.volume ∧
    a.is_main = b.is_main

/-! ## Concrete instances used by witnesses -/

/-- A concrete speaker track. -/
def cTrack0 : Track :=
  ⟨"trk0", "Speaker 1", TrackType.speaker, "/tracks/trk0.wav", 10, [], none, "#f59e0b"⟩

/-- A concrete noise track. -/
def cTrackN : Track :=
  ⟨"trkN", "Background", TrackType.noise, "/tracks/trkN.wav", 10, [], none, "#888888"⟩

/-- A concrete completed analysis result with two tracks. -/
def cResult1 : AnalysisResult :=
  ⟨"job1", ProcessingStatus.complete, "meeting.mp3", 10, 1, [cTrack0, cTrackN],
    "2024-01-01", some "2024-01-02", none⟩

/-- The store state right after cResult1 is installed. -/
def cState1 : AppState :=
  setResult (some cResult1) initialState

/-- The UI state of cTrack0 after its volume is set to 5 (clamped to 2). -/
def cTrackUI1 : TrackUIState :=
  ⟨cTrack0, false, false, 2, true⟩

/-- The serialized TrackConfig of cTrackUI1. -/
def cConfig1 : TrackConfig :=
  ⟨"trk0", false, false, 2, true⟩

/-- A fresh poll loop over the initial store. -/
def cPoll0 : PollState :=
  ⟨initialState, true⟩

/-- A mid-flight poll response. -/
def cResp1 : JobStatusResponse :=
  ⟨"job1", ProcessingStatus.separating, 30, "Separating audio sources", none⟩

/-- A terminal poll response carrying the result. -/
def cResp2 : JobStatusResponse :=
  ⟨"job1", ProcessingStatus.complete, 100, "Done", some cResult1⟩

/-- A concrete response sequence obeying the backend contract. -/
def cResponses : List JobStatusResponse :=
  [cResp1, cResp2]

/-- Concrete engine tracks: a speaker track and a noise track. -/
def cEngineTracks : List EngineTrack :=
  [⟨"trk0", TrackType.speaker, [1, 1]⟩, ⟨"trkN", TrackType.noise, [1, 1]⟩]

/-- Concrete configs: the speaker is soloed, the noise track muted. -/
def cCfgsA : List TrackConfig :=
  [⟨"trk0", false, true, 1, false⟩, ⟨"trkN", true, false, 1, false⟩]

/-- The same configs with both muted flags flipped. -/
def cCfgsB : List TrackConfig :=
  [⟨"trk0", true, true, 1, false⟩, ⟨"trkN", false, false, 1, false⟩]

/-- Fallback TrackUIState used with List.getD. -/
def dummyUITrack : TrackUIState :=
  ⟨⟨"", "", TrackType.other, "", 0, [], none, ""⟩, false, false, 1, false⟩

/-! ## Claim theorems for the store -/

/-- mkUITracks preserves the list length. -/
theorem mkUITracks_length (ts : List Track) (idx : ℕ) :
    (mkUITracks idx ts).length = ts.length := by
  induction ts generalizing idx with
  | nil => rfl
  | cons t ts ih => simp [mkUITracks, ih]

/-- Element i of mkUITracks idx ts wraps element i of ts with the default mix
parameters, marking it main exactly when idx + i = 0 and it is a speaker. -/
theorem mkUITracks_getD (ts : List Track) (idx i : ℕ) (hi : i < ts.length) :
    (mkUITracks idx ts).getD i dummyUITrack =
      ⟨ts.getD i dummyUITrack.toTrack, false, false, 1,
        (idx + i == 0) && ((ts.getD i dummyUITrack.toTrack).type == TrackType.speaker)⟩ := by
  induction ts generalizing idx i with
  | nil => simp at hi
  | cons t ts ih =>
    cases i with
    | zero => simp [mkUITracks]
    | succ i =>
      have hi' : i < ts.length := by simpa using hi
      have h := ih (idx + 1) i hi'
      simp only [mkUITracks, List.getD_cons_succ, h]
      have : idx + 1 + i = idx + (i + 1) := by omega
      rw [this]

/-- C10: from every store state, reset restores exactly the initial state —
no uploaded file, jobId null, status pending, progress 0, empty track list,
main speaker boost 3.0, noise reduction 0, wav output, normalize true, error
null — and reset is therefore idempotent. -/
theorem reset_restores_initialState (s : AppState) :
    reset s = initialState ∧ reset (reset s) = reset s ∧
    initialState.uploadedFile = none ∧ initialState.jobId = none ∧
    initialState.status = ProcessingStatus.pending ∧ initialState.progress = 0 ∧
    initialState.tracks = [] ∧ initialState.mainSpeakerBoostDb = 3 ∧
    initialState.noiseReductionLevel = 0 ∧ initialState.outputFormat = OutputFormat.wav ∧
    initialState.normalize = true ∧ initialState.error = none :=
  ⟨rfl, rfl, rfl, rfl, rfl, rfl, rfl, rfl, rfl, rfl, rfl, rfl⟩

/-- C5 counterexample: setMainSpeakerBoostDb and setNoiseReductionLevel do
not clamp — after setMainSpeakerBoostDb 11 the MixConfig carries a boost of
11, outside [0,10], and after setNoiseReductionLevel 2 it carries a noise
reduction level of 2, outside [0,1]. -/
theorem setters_do_not_clamp_counterexample :
    (getMixConfig (setMainSpeakerBoostDb 11 initialState)).main_speaker_boost_db = 11 ∧
    ¬ (getMixConfig (setMainSpeakerBoostDb 11 initialState)).main_speaker_boost_db ≤ 10 ∧
    (getMixConfig (setNoiseReductionLevel 2 initialState)).noise_reduction_level = 2 ∧
    ¬ (getMixConfig (setNoiseReductionLevel 2 initialState)).noise_reduction_level ≤ 1 := by
  refine ⟨rfl, ?_, rfl, ?_⟩ <;> norm_num [getMixConfig, setMainSpeakerBoostDb,
    setNoiseReductionLevel, initialState]

/-- C5 amended: the setters store their arguments unclamped and getMixConfig
carries exactly the stored values, so out-of-range inputs reach the MixConfig
unchanged (clamping is left to the rendering engine, not done in the store). -/
theorem setters_pass_through (s : AppState) (db level : ℚ) :
    (getMixConfig (setNoiseReductionLevel level (setMainSpeakerBoostDb db s))).main_speaker_boost_db = db ∧
    (getMixConfig (setNoiseReductionLevel level (setMainSpeakerBoostDb db s))).noise_reduction_level = level :=
  ⟨rfl, rfl⟩

/-- C3: setTrackVolume stores max(0, min(2, v)) for the addressed track, and
getMixConfig on the resulting state carries that clamped value in the
TrackConfig of that track; out-of-range inputs are clamped, never rejected. -/
theorem setTrackVolume_clamps (s : AppState) (trackId : String) (v : ℚ)
    (t : TrackUIState) (ht : t ∈ (setTrackVolume trackId v s).tracks)
    (htid : t.id = trackId)
    (c : TrackConfig) (hc : c ∈ (getMixConfig (setTrackVolume trackId v s)).tracks)
    (hcid : c.track_id = trackId) :
    t.volume = max 0 (min 2 v) ∧ c.volume = max 0 (min 2 v) := by
  constructor
  · simp only [setTrackVolume, List.mem_map] at ht
    obtain ⟨t0, _, rfl⟩ := ht
    by_cases h : t0.id == trackId
    · simp [h]
    · simp only [h, if_neg, Bool.false_eq_true, not_false_iff, if_false] at htid ⊢
      exact absurd (by simp [htid]) h
  · simp only [getMixConfig, setTrackVolume, List.mem_map] at hc
    obtain ⟨t1, ⟨t0, _, rfl⟩, rfl⟩ := hc
    by_cases h : t0.id == trackId
    · simp [h]
    · simp only [h, Bool.false_eq_true, if_false] at hcid ⊢
      exact absurd (by simp [hcid]) h

/-- C3 witness: a concrete store with one track; volume input 5 is clamped
to 2 both in the stored track and in the serialized MixConfig. -/
theorem setTrackVolume_clamps_witness :
    cTrackUI1 ∈ (setTrackVolume "trk0" 5 cState1).tracks ∧ cTrackUI1.id = "trk0" ∧
    cConfig1 ∈ (getMixConfig (setTrackVolume "trk0" 5 cState1)).tracks ∧
    cConfig1.track_id = "trk0" ∧
    cTrackUI1.volume = max 0 (min 2 5) ∧ cConfig1.volume = max 0 (min 2 5) := by
  have h := setTrackVolume_clamps cState1 "trk0" 5 cTrackUI1 (by decide) rfl
    cConfig1 (by decide) rfl
  exact ⟨by decide, rfl, by decide, rfl, h.1, h.2⟩

/-- Every element of mkUITracks carries the default mix parameters
muted = false, solo = false, volume = 1. -/
theorem mkUITracks_defaults (ts : List Track) (idx : ℕ) :
    ∀ t ∈ mkUITracks idx ts, t.muted = false ∧ t.solo = false ∧ t.volume = 1 := by
  induction ts generalizing idx with
  | nil => intro t ht; exact absurd ht (List.not_mem_nil t)
  | cons a as ih =>
    intro t ht
    rcases List.mem_cons.mp ht with h | h
    · subst h; exact ⟨rfl, rfl, rfl⟩
    · exact ih (idx + 1) t h

/-- C4 counterexample: installing cResult1 (whose first track is a speaker)
sets isMain = true on that first track, so setResult does not give every
track isMain = false. -/
theorem setResult_marks_first_speaker_main :
    ((setResult (some cResult1) initialState).tracks.map fun t => t.isMain) = [true, false] ∧
    ¬ ∀ t ∈ (setResult (some cResult1) initialState).tracks, t.isMain = false := by
  decide

/-- C4 amended: setResult initializes every track with muted = false,
solo = false and volume 1.0, and isMain is false for every track except the
one at index 0, which is main exactly when its type is speaker. -/
theorem setResult_default_params (s : AppState) (r : AnalysisResult) (i : ℕ)
    (hi : i < (setResult (some r) s).tracks.length) :
    (∀ t ∈ (setResult (some r) s).tracks, t.muted = false ∧ t.solo = false ∧ t.volume = 1) ∧
    ((setResult (some r) s).tracks.getD i dummyUITrack).isMain =
      ((i == 0) &&
        (((setResult (some r) s).tracks.getD i dummyUITrack).type == TrackType.speaker)) := by
  have htr : (setResult (some r) s).tracks = mkUITracks 0 r.tracks := rfl
  constructor
  · rw [htr]
    exact mkUITracks_defaults r.tracks 0
  · rw [htr] at hi ⊢
    rw [mkUITracks_length] at hi
    rw [mkUITracks_getD r.tracks 0 i hi]
    simp

/-- C4 amended, witness: at index 0 of the concrete state cState1 the track
is a speaker and is marked main; all tracks carry the default parameters. -/
theorem setResult_default_params_witness :
    0 < (setResult (some cResult1) initialState).tracks.length ∧
    ((∀ t ∈ (setResult (some cResult1) initialState).tracks,
        t.muted = false ∧ t.solo = false ∧ t.volume = 1) ∧
      ((setResult (some cResult1) initialState).tracks.getD 0 dummyUITrack).isMain =
        ((0 == 0) &&
          (((setResult (some cResult1) initialState).tracks.getD 0 dummyUITrack).type ==
            TrackType.speaker))) :=
  ⟨by decide, setResult_default_params initialState cResult1 0 (by decide)⟩

/-- Mapping an id-preserving update over the tracks keeps the id list. -/
theorem map_id_of_pointwise {f : TrackUIState → TrackUIState}
    (h : ∀ t, (f t).id = t.id) (ts : List TrackUIState) :
    (ts.map f).map (fun t => t.id) = ts.map (fun t => t.id) := by
  rw [List.map_map]
  congr 1
  funext t
  exact h t

/-- Mapping an isMain-preserving update over the tracks keeps mainCount. -/
theorem mainCount_map_of_pointwise {f : TrackUIState → TrackUIState}
    (h : ∀ t, (f t).isMain = t.isMain) (ts : List TrackUIState) :
    mainCount (ts.map f) = mainCount ts := by
  unfold mainCount
  rw [List.countP_map]
  congr 1
  funext t
  simp [Function.comp, h t]

/-- mkUITracks preserves the track id list. -/
theorem mkUITracks_ids (ts : List Track) (idx : ℕ) :
    (mkUITracks idx ts).map (fun t => t.id) = ts.map Track.id := by
  induction ts generalizing idx with
  | nil => rfl
  | cons a as ih => simp [mkUITracks, ih]

/-- With a nonzero starting index, mkUITracks marks no track as main. -/
theorem mkUITracks_mainCount_zero (ts : List Track) (idx : ℕ) (h : idx ≠ 0) :
    mainCount (mkUITracks idx ts) = 0 := by
  induction ts generalizing idx with
  | nil => rfl
  | cons a as ih =>
    unfold mkUITracks mainCount
    rw [List.countP_cons]
    have hflag : (idx == 0 && a.type == TrackType.speaker) = false := by
      simp [h]
    have := ih (idx + 1) (Nat.succ_ne_zero idx)
    unfold mainCount at this
    simp [hflag, this]

/-- mkUITracks marks at most one track as main. -/
theorem mkUITracks_mainCount_le_one (ts : List Track) (idx : ℕ) :
    mainCount (mkUITracks idx ts) ≤ 1 := by
  cases ts with
  | nil => exact Nat.zero_le 1
  | cons a as =>
    unfold mkUITracks mainCount
    rw [List.countP_cons]
    have h0 := mkUITracks_mainCount_zero as (idx + 1) (Nat.succ_ne_zero idx)
    unfold mainCount at h0
    rw [h0]
    split <;> omega

/-- getMixConfig serializes is_main from isMain, so the counts agree. -/
theorem getMixConfig_mainCount (s : AppState) :
    (getMixConfig s).tracks.countP (fun c => c.is_main) = mainCount s.tracks := by
  unfold getMixConfig mainCount
  rw [List.countP_map]
  rfl

/-- An update that preserves id and isMain preserves the invariant. -/
theorem tracks_map_inv (f : TrackUIState → TrackUIState)
    (hid : ∀ t, (f t).id = t.id) (hm : ∀ t, (f t).isMain = t.isMain)
    (ts : List TrackUIState) (hnd : (ts.map fun t => t.id).Nodup)
    (hmc : mainCount ts ≤ 1) :
    ((ts.map f).map fun t => t.id).Nodup ∧ mainCount (ts.map f) ≤ 1 := by
  rw [map_id_of_pointwise hid, mainCount_map_of_pointwise hm]
  exact ⟨hnd, hmc⟩

/-- Each per-track store action preserves distinctness of the id list and
the bound of at most one main track. -/
theorem applyTrackOp_inv (op : TrackOp) (s : AppState)
    (hnd : (s.tracks.map fun t => t.id).Nodup) (hmc : mainCount s.tracks ≤ 1) :
    ((applyTrackOp op s).tracks.map fun t => t.id).Nodup ∧
      mainCount (applyTrackOp op s).tracks ≤ 1 := by
  cases op with
  | mute i =>
    exact tracks_map_inv _ (fun t => by by_cases h : t.id == i <;> simp [h])
      (fun t => by by_cases h : t.id == i <;> simp [h]) s.tracks hnd hmc
  | solo i =>
    exact tracks_map_inv _ (fun t => by by_cases h : t.id == i <;> simp [h])
      (fun t => by by_cases h : t.id == i <;> simp [h]) s.tracks hnd hmc
  | vol i v =>
    exact tracks_map_inv _ (fun t => by by_cases h : t.id == i <;> simp [h])
      (fun t => by by_cases h : t.id == i <;> simp [h]) s.tracks hnd hmc
  | main i =>
    have hid : ∀ t : TrackUIState,
        (({ t with isMain := t.id == i } : TrackUIState)).id = t.id := fun t => rfl
    refine ⟨by simpa [applyTrackOp, setMainSpeaker, map_id_of_pointwise hid] using hnd, ?_⟩
    have hcount : mainCount ((setMainSpeaker i s).tracks) =
        (s.tracks.map fun t => t.id).count i := by
      unfold setMainSpeaker mainCount
      rw [List.count_eq_countP, List.countP_map, List.countP_map]
      rfl
    rw [show applyTrackOp (TrackOp.main i) s = setMainSpeaker i s from rfl, hcount]
    exact List.nodup_iff_count_le_one.mp hnd i

/-- A sequence of per-track store actions preserves the invariant. -/
theorem applyTrackOps_inv (ops : List TrackOp) (s : AppState)
    (hnd : (s.tracks.map fun t => t.id).Nodup) (hmc : mainCount s.tracks ≤ 1) :
    ((applyTrackOps ops s).tracks.map fun t => t.id).Nodup ∧
      mainCount (applyTrackOps ops s).tracks ≤ 1 := by
  induction ops generalizing s with
  | nil => exact ⟨hnd, hmc⟩
  | cons op ops ih =>
    have h := applyTrackOp_inv op s hnd hmc
    exact ih (applyTrackOp op s) h.1 h.2

/-- C2: from any state produced by setResult (tracks with distinct ids) and
any sequence of track operations, at most one track has isMain = true, and
the MixConfig serialized by getMixConfig has at most one is_main entry. -/
theorem trackOps_at_most_one_main (s : AppState) (r : AnalysisResult)
    (ops : List TrackOp) (hnd : (r.tracks.map Track.id).Nodup) :
    mainCount (applyTrackOps ops (setResult (some r) s)).tracks ≤ 1 ∧
    (getMixConfig (applyTrackOps ops (setResult (some r) s))).tracks.countP
      (fun c => c.is_main) ≤ 1 := by
  have h0nd : ((setResult (some r) s).tracks.map fun t => t.id).Nodup := by
    show ((mkUITracks 0 r.tracks).map fun t => t.id).Nodup
    rw [mkUITracks_ids]
    exact hnd
  have h0mc : mainCount (setResult (some r) s).tracks ≤ 1 :=
    mkUITracks_mainCount_le_one r.tracks 0
  have h := applyTrackOps_inv ops (setResult (some r) s) h0nd h0mc
  exact ⟨h.2, by rw [getMixConfig_mainCount]; exact h.2⟩

/-- C2 witness: concrete result with two distinct track ids, then switching
the main speaker and muting; at most one main remains. -/
theorem trackOps_at_most_one_main_witness :
    (cResult1.tracks.map Track.id).Nodup ∧
    (mainCount (applyTrackOps [TrackOp.main "trkN", TrackOp.mute "trk0"]
      (setResult (some cResult1) initialState)).tracks ≤ 1 ∧
    (getMixConfig (applyTrackOps [TrackOp.main "trkN", TrackOp.mute "trk0"]
      (setResult (some cResult1) initialState))).tracks.countP
      (fun c => c.is_main) ≤ 1) :=
  ⟨by decide, trackOps_at_most_one_main initialState cResult1
    [TrackOp.main "trkN", TrackOp.mute "trk0"] (by decide)⟩

/-- C7: every preview request of the player asks for start_time 0 and
duration min(60, job duration); for positive job duration the window
[0, min(60, d)) lies inside [0, d] and is not degenerate. -/
theorem preview_window_in_range (d : ℚ) (hd : 0 < d) :
    (handleGeneratePreviewArgs d).1 = 0 ∧
    (handleGeneratePreviewArgs d).2 = min 60 d ∧
    (handleGeneratePreviewArgs d).1 + (handleGeneratePreviewArgs d).2 ≤ d ∧
    (handleGeneratePreviewArgs d).1 < d := by
  refine ⟨rfl, rfl, ?_, ?_⟩
  · show (0 : ℚ) + min 60 d ≤ d
    rw [zero_add]
    exact min_le_right 60 d
  · exact hd

/-- C7 witness: at job duration 100 the requested window is [0, 60). -/
theorem preview_window_in_range_witness :
    (0 : ℚ) < 100 ∧
    ((handleGeneratePreviewArgs 100).1 = 0 ∧
      (handleGeneratePreviewArgs 100).2 = min 60 100 ∧
      (handleGeneratePreviewArgs 100).1 + (handleGeneratePreviewArgs 100).2 ≤ 100 ∧
      (handleGeneratePreviewArgs 100).1 < 100) :=
  ⟨by norm_num, preview_window_in_range 100 (by norm_num)⟩

/-- C8: exportAudio and generatePreview never mutate job state, whether the
api call succeeds or fails: jobId, status, progress, result and the
per-track mix parameters are unchanged, and so is every other store field
outside the render-scoped ones — exportAudio may touch only isExporting,
exportUrl and error, and generatePreview only error (its preview url is
component-local, returned beside the state). -/
theorem render_requests_preserve_job_state (base : String)
    (oe : Except String ExportResponse) (op : Except String PreviewResponse)
    (s : AppState) :
    ((exportAudioRun base oe s).jobId = s.jobId ∧
      (exportAudioRun base oe s).status = s.status ∧
      (exportAudioRun base oe s).progress = s.progress ∧
      (exportAudioRun base oe s).result = s.result ∧
      (exportAudioRun base oe s).tracks = s.tracks ∧
      (exportAudioRun base oe s).uploadedFile = s.uploadedFile ∧
      (exportAudioRun base oe s).uploadProgress = s.uploadProgress ∧
      (exportAudioRun base oe s).currentStep = s.currentStep ∧
      (exportAudioRun base oe s).mainSpeakerBoostDb = s.mainSpeakerBoostDb ∧
      (exportAudioRun base oe s).noiseReductionLevel = s.noiseReductionLevel ∧
      (exportAudioRun base oe s).outputFormat = s.outputFormat ∧
      (exportAudioRun base oe s).normalize = s.normalize ∧
      (exportAudioRun base oe s).isPlaying = s.isPlaying ∧
      (exportAudioRun base oe s).currentTime = s.currentTime) ∧
    ((generatePreviewRun base op s).1.jobId = s.jobId ∧
      (generatePreviewRun base op s).1.status = s.status ∧
      (generatePreviewRun base op s).1.progress = s.progress ∧
      (generatePreviewRun base op s).1.result = s.result ∧
      (generatePreviewRun base op s).1.tracks = s.tracks ∧
      (generatePreviewRun base op s).1.uploadedFile = s.uploadedFile ∧
      (generatePreviewRun base op s).1.uploadProgress = s.uploadProgress ∧
      (generatePreviewRun base op s).1.currentStep = s.currentStep ∧
      (generatePreviewRun base op s).1.mainSpeakerBoostDb = s.mainSpeakerBoostDb ∧
      (generatePreviewRun base op s).1.noiseReductionLevel = s.noiseReductionLevel ∧
      (generatePreviewRun base op s).1.outputFormat = s.outputFormat ∧
      (generatePreviewRun base op s).1.normalize = s.normalize ∧
      (generatePreviewRun base op s).1.isPlaying = s.isPlaying ∧
      (generatePreviewRun base op s).1.currentTime = s.currentTime ∧
      (generatePreviewRun base op s).1.isExporting = s.isExporting ∧
      (generatePreviewRun base op s).1.exportUrl = s.exportUrl) := by
  cases hj : s.jobId <;> cases oe <;> cases op <;>
    simp [exportAudioRun, generatePreviewRun, setError, setIsExporting,
      setExportUrl, hj]

/-- C9: the upload is started exactly when the lowercased last
dot-component of the file name is an allowed extension and the size is at
most 500 * 1024 * 1024 bytes; otherwise a validation message is set. -/
theorem upload_validation (f : UploadFile) :
    ((handleFile f).1 = true ↔
      (toLowerCase (fileExtension f.name) ∈ ALLOWED_EXTENSIONS ∧
        f.size ≤ 500 * 1024 * 1024)) ∧
    ((handleFile f).1 = false → (handleFile f).2.isSome = true) := by
  unfold handleFile validateFile
  by_cases hmem : toLowerCase (fileExtension f.name) ∈ ALLOWED_EXTENSIONS
  · have hne : ¬(toLowerCase (fileExtension f.name) = "" ∨
        toLowerCase (fileExtension f.name) ∉ ALLOWED_EXTENSIONS) := by
      rintro (h | h)
      · rw [h] at hmem
        exact absurd hmem (by decide)
      · exact h hmem
    rw [if_neg hne]
    by_cases hsz : 500 * 1024 * 1024 < f.size
    · rw [if_pos hsz]
      refine ⟨?_, fun _ => rfl⟩
      constructor
      · intro h
        exact absurd h (by decide)
      · rintro ⟨_, h2⟩
        omega
    · rw [if_neg hsz]
      refine ⟨?_, fun h => absurd h (by decide)⟩
      constructor
      · intro _
        exact ⟨hmem, by omega⟩
      · intro _
        rfl
  · have hor : toLowerCase (fileExtension f.name) = "" ∨
        toLowerCase (fileExtension f.name) ∉ ALLOWED_EXTENSIONS := Or.inr hmem
    rw [if_pos hor]
    refine ⟨?_, fun _ => rfl⟩
    constructor
    · intro h
      exact absurd h (by decide)
    · rintro ⟨h, _⟩
      exact absurd h hmem

/-- C9 witness: a valid mp3 file is accepted; a pdf file is rejected with a
validation message. -/
theorem upload_validation_witness :
    (handleFile ⟨"meeting.MP3", 1000⟩).1 = true ∧
    (handleFile ⟨"notes.pdf", 1000⟩).1 = false ∧
    (handleFile ⟨"notes.pdf", 1000⟩).2.isSome = true := by
  have h1 := (upload_validation ⟨"meeting.MP3", 1000⟩).1.mpr (by decide)
  have h2 := (upload_validation ⟨"notes.pdf", 1000⟩).2 (by decide)
  exact ⟨h1, by decide, h2⟩

/-- A cleared poll interval never changes the state again. -/
theorem pollStep_inactive (r : JobStatusResponse) (q : PollState)
    (h : q.pollingActive = false) : pollStep r q = q := by
  unfold pollStep
  rw [if_pos h]

/-- After the interval is cleared, the whole trajectory is constant. -/
theorem pollStates_inactive (rs : List JobStatusResponse) (q : PollState)
    (h : q.pollingActive = false) :
    pollStates q rs = List.replicate rs.length q := by
  induction rs with
  | nil => rfl
  | cons r rs ih =>
    unfold pollStates
    rw [pollStep_inactive r q h]
    show q :: pollStates q rs = _
    rw [ih, List.length_cons, List.replicate_succ]

/-- While the interval is alive, a poll stores the response progress. -/
theorem pollStep_progress (r : JobStatusResponse) (q : PollState)
    (hact : q.pollingActive = true) :
    (pollStep r q).store.progress = r.progress := by
  obtain ⟨jid, st, prog, step, res⟩ := r
  cases st <;> cases res <;>
    simp [pollStep, hact, setStatus, setProgress, setCurrentStep, setResult,
      setError]

/-- A terminal response carrying its result (complete) or any failed
response clears the interval. -/
theorem pollStep_stops (r : JobStatusResponse) (q : PollState)
    (hact : q.pollingActive = true) (hterm : isTerminal r.status = true)
    (hsome : r.status = ProcessingStatus.complete → r.result.isSome) :
    (pollStep r q).pollingActive = false := by
  obtain ⟨jid, st, prog, step, res⟩ := r
  cases st <;> cases res <;>
    simp_all [pollStep, isTerminal, setStatus, setProgress, setCurrentStep,
      setResult, setError]

/-- A non-terminal response keeps the interval alive. -/
theorem pollStep_keeps (r : JobStatusResponse) (q : PollState)
    (hterm : isTerminal r.status = false) :
    (pollStep r q).pollingActive = q.pollingActive := by
  obtain ⟨jid, st, prog, step, res⟩ := r
  by_cases hact : q.pollingActive = false
  · rw [pollStep_inactive _ _ hact]
  · have hact' : q.pollingActive = true := by
      revert hact; cases q.pollingActive <;> simp
    cases st <;> cases res <;>
      simp_all [pollStep, isTerminal, setStatus, setProgress, setCurrentStep,
        setResult, setError]

/-- The constant trajectory is a non-decreasing progress chain. -/
theorem chain_const (q : PollState) (n : ℕ) :
    List.Chain' (fun a b : PollState => a.store.progress ≤ b.store.progress)
      (q :: List.replicate n q) := by
  induction n with
  | zero => simp
  | succ n ih =>
    rw [List.replicate_succ]
    exact List.chain'_cons.mpr ⟨le_refl _, ih⟩

/-- Along any response stream obeying the backend contract, the stored
progress never decreases. -/
theorem pollStates_chain (p0 : PollState) (rs : List JobStatusResponse)
    (hspec : SpecStream p0.store.progress rs) :
    List.Chain' (fun a b : PollState => a.store.progress ≤ b.store.progress)
      (p0 :: pollStates p0 rs) := by
  induction rs generalizing p0 with
  | nil => simp [pollStates]
  | cons r rs ih =>
    cases hspec with
    | cons _ _ _ hle hsome hrest =>
      by_cases hact : p0.pollingActive = false
      · rw [show pollStates p0 (r :: rs) = List.replicate (r :: rs).length p0 from
          pollStates_inactive (r :: rs) p0 hact]
        exact chain_const p0 (r :: rs).length
      · have hact' : p0.pollingActive = true := by
          revert hact; cases p0.pollingActive <;> simp
        have hprog : (pollStep r p0).store.progress = r.progress :=
          pollStep_progress r p0 hact'
        show List.Chain' _ (p0 :: pollStep r p0 :: pollStates (pollStep r p0) rs)
        rw [List.chain'_cons]
        refine ⟨by rw [hprog]; exact hle, ?_⟩
        by_cases hterm : isTerminal r.status = true
        · have hstop : (pollStep r p0).pollingActive = false :=
            pollStep_stops r p0 hact' hterm hsome
          rw [pollStates_inactive rs (pollStep r p0) hstop]
          exact chain_const (pollStep r p0) rs.length
        · have hterm' : isTerminal r.status = false := by
            revert hterm; cases isTerminal r.status <;> simp
          exact ih (pollStep r p0) (by rw [hprog]; exact hrest hterm')

/-- C6: across successive polls of a response stream obeying the backend
contract, the stored progress never decreases; once the interval is
cleared a poll changes nothing, and a poll that observes a terminal status
clears the interval while storing that final progress. -/
theorem polling_monotone_and_stops (p0 : PollState) (rs : List JobStatusResponse)
    (hspec : SpecStream p0.store.progress rs) :
    List.Chain' (fun a b : PollState => a.store.progress ≤ b.store.progress)
      (p0 :: pollStates p0 rs) ∧
    (∀ q ∈ pollStates p0 rs, q.pollingActive = false →
      ∀ r, pollStep r q = q) ∧
    (∀ r : JobStatusResponse, isTerminal r.status = true →
      (r.status = ProcessingStatus.complete → r.result.isSome) →
      ∀ q : PollState, q.pollingActive = true →
        (pollStep r q).pollingActive = false ∧
        (pollStep r q).store.progress = r.progress) := by
  refine ⟨pollStates_chain p0 rs hspec, ?_, ?_⟩
  · intro q _ hq r
    exact pollStep_inactive r q hq
  · intro r hterm hsome q hact
    exact ⟨pollStep_stops r q hact hterm hsome, pollStep_progress r q hact⟩

/-- C6 witness: a concrete stream (separating at 30, then complete at 100
with the result) satisfies the backend contract, and the conclusions hold
for it. -/
theorem polling_monotone_and_stops_witness :
    SpecStream cPoll0.store.progress cResponses ∧
    (List.Chain' (fun a b : PollState => a.store.progress ≤ b.store.progress)
      (cPoll0 :: pollStates cPoll0 cResponses) ∧
    (∀ q ∈ pollStates cPoll0 cResponses, q.pollingActive = false →
      ∀ r, pollStep r q = q) ∧
    (∀ r : JobStatusResponse, isTerminal r.status = true →
      (r.status = ProcessingStatus.complete → r.result.isSome) →
      ∀ q : PollState, q.pollingActive = true →
        (pollStep r q).pollingActive = false ∧
        (pollStep r q).store.progress = r.progress)) := by
  have hs : SpecStream cPoll0.store.progress cResponses := by
    refine SpecStream.cons _ _ _ (by decide) (fun h => absurd h (by decide)) ?_
    intro _
    refine SpecStream.cons _ _ _ (by decide) (fun _ => by decide) ?_
    intro hf
    exact absurd hf (by decide)
  exact ⟨hs, polling_monotone_and_stops cPoll0 cResponses hs⟩

/-- Resolution joins related config lists to related effective configs. -/
theorem resolveConfig_rel {cfgs1 cfgs2 : List TrackConfig}
    (hrel : List.Forall₂ sameButMuted cfgs1 cfgs2) (t : EngineTrack) :
    sameButMuted (resolveConfig cfgs1 t) (resolveConfig cfgs2 t) := by
  induction hrel with
  | nil => exact ⟨rfl, rfl, rfl, rfl⟩
  | cons hab hrest ih =>
    rename_i a b l1 l2
    by_cases h : a.track_id == t.track_id
    · have h' : (fun c : TrackConfig => c.track_id == t.track_id) a = true := h
      have hb : (fun c : TrackConfig => c.track_id == t.track_id) b = true := by
        show (b.track_id == t.track_id) = true
        rw [← hab.1]; exact h
      unfold resolveConfig
      rw [List.find?_cons_of_pos l1 h', List.find?_cons_of_pos l2 hb]
      exact hab
    · have h' : ¬(fun c : TrackConfig => c.track_id == t.track_id) a = true := h
      have hb : ¬(fun c : TrackConfig => c.track_id == t.track_id) b = true := by
        show ¬(b.track_id == t.track_id) = true
        rw [← hab.1]; exact h
      unfold resolveConfig
      rw [List.find?_cons_of_neg l1 h', List.find?_cons_of_neg l2 hb]
      exact ih

/-- anySoloed only reads solo flags, so related configs agree on it. -/
theorem anySoloed_rel {cfgs1 cfgs2 : List TrackConfig}
    (hrel : List.Forall₂ sameButMuted cfgs1 cfgs2) (ts : List EngineTrack) :
    anySoloed cfgs1 ts = anySoloed cfgs2 ts := by
  unfold anySoloed
  induction ts with
  | nil => rfl
  | cons t ts ih =>
    rw [List.any_cons, List.any_cons, (resolveConfig_rel hrel t).2.1, ih]

/-- The selected main track does not depend on muted flags. -/
theorem mainTrackId_rel {cfgs1 cfgs2 : List TrackConfig}
    (hrel : List.Forall₂ sameButMuted cfgs1 cfgs2) :
    mainTrackId cfgs1 = mainTrackId cfgs2 := by
  induction hrel with
  | nil => rfl
  | cons hab hrest ih =>
    rename_i a b l1 l2
    by_cases h : a.is_main
    · have h' : (fun c : TrackConfig => c.is_main) a = true := h
      have hb : (fun c : TrackConfig => c.is_main) b = true := by
        show b.is_main = true
        rw [← hab.2.2.2]; exact h
      unfold mainTrackId
      rw [List.find?_cons_of_pos l1 h', List.find?_cons_of_pos l2 hb]
      simp [hab.1]
    · have h' : ¬(fun c : TrackConfig => c.is_main) a = true := h
      have hb : ¬(fun c : TrackConfig => c.is_main) b = true := by
        show ¬b.is_main = true
        rw [← hab.2.2.2]; exact h
      unfold mainTrackId
      rw [List.find?_cons_of_neg l1 h', List.find?_cons_of_neg l2 hb]
      exact ih

/-- The gain of a track does not depend on muted flags. -/
theorem trackGain_rel (dbToLin : ℚ → ℚ) {cfgs1 cfgs2 : List TrackConfig}
    (hrel : List.Forall₂ sameButMuted cfgs1 cfgs2) (boost nr : ℚ)
    (t : EngineTrack) :
    trackGain dbToLin cfgs1 boost nr t = trackGain dbToLin cfgs2 boost nr t := by
  unfold trackGain
  rw [(resolveConfig_rel hrel t).2.2.1, mainTrackId_rel hrel]

/-- C1: with at least one track soloed, the rendered buffer is unaffected
by muted flags — configs differing only in muted render identically — and
every track with solo = false is treated as silent regardless of muted;
with no track soloed, exactly the muted tracks are silent. -/
theorem solo_dominates_mute (dbToLin : ℚ → ℚ) (ts : List EngineTrack)
    (cfgs1 cfgs2 : List TrackConfig) (boost nr : ℚ) (normalize : Bool)
    (hrel : List.Forall₂ sameButMuted cfgs1 cfgs2) :
    (anySoloed cfgs1 ts = true →
      renderMix dbToLin ts cfgs1 boost nr normalize =
        renderMix dbToLin ts cfgs2 boost nr normalize ∧
      ∀ t ∈ ts, isSilent cfgs1 ts t = !(resolveConfig cfgs1 t).solo) ∧
    (anySoloed cfgs1 ts = false →
      ∀ t ∈ ts, isSilent cfgs1 ts t = (resolveConfig cfgs1 t).muted) := by
  constructor
  · intro hsolo
    have hsolo2 : anySoloed cfgs2 ts = true := by
      rw [← anySoloed_rel hrel]; exact hsolo
    have hsil : ∀ t : EngineTrack, isSilent cfgs1 ts t = isSilent cfgs2 ts t := by
      intro t
      unfold isSilent
      rw [hsolo, hsolo2, (resolveConfig_rel hrel t).2.1]
      simp
    constructor
    · unfold renderMix
      have hcontrib : ∀ t : EngineTrack,
          trackContribution dbToLin cfgs1 ts boost nr t =
            trackContribution dbToLin cfgs2 ts boost nr t := by
        intro t
        unfold trackContribution
        rw [hsil t, trackGain_rel dbToLin hrel]
      have hmap : (ts.map fun t => trackContribution dbToLin cfgs1 ts boost nr t) =
          ts.map fun t => trackContribution dbToLin cfgs2 ts boost nr t := by
        apply List.map_congr_left
        intro t _
        exact hcontrib t
      rw [hmap]
    · intro t _
      unfold isSilent
      rw [hsolo]
      simp
  · intro hsolo
    intro t _
    unfold isSilent
    rw [hsolo]
    simp

/-- C1 witness: over concrete tracks with the speaker soloed, flipping both
muted flags leaves the render unchanged, the unsoloed noise track is
silent, and with no solo the muted flags decide silence. -/
theorem solo_dominates_mute_witness :
    List.Forall₂ sameButMuted cCfgsA cCfgsB ∧ anySoloed cCfgsA cEngineTracks = true ∧
    (renderMix id cEngineTracks cCfgsA 3 0 true =
      renderMix id cEngineTracks cCfgsB 3 0 true ∧
    ∀ t ∈ cEngineTracks,
      isSilent cCfgsA cEngineTracks t = !(resolveConfig cCfgsA t).solo) := by
  have hrel : List.Forall₂ sameButMuted cCfgsA cCfgsB :=
    List.Forall₂.cons ⟨rfl, rfl, rfl, rfl⟩
      (List.Forall₂.cons ⟨rfl, rfl, rfl, rfl⟩ List.Forall₂.nil)
  have hsolo : anySoloed cCfgsA cEngineTracks = true := by decide
  exact ⟨hrel, hsolo,
    (solo_dominates_mute id cEngineTracks cCfgsA cCfgsB 3 0 true hrel).1 hsolo⟩

end VoxSplit
